import Mathlib

/-!
Verification development for the Modpack-BuildTools repository.

The definitions below are a shallow embedding of the repository's download
core: the hash functions of `util/hashes.js`, the
`ConcurrentRetryDownloader` class and the standalone `retryRequest` helper
of `util/downloaders.js` (concatenated into `src/gulpfile.js` in the
verification snapshot).  JavaScript numbers that participate in 32-bit
bitwise arithmetic are modelled as `Nat` reduced modulo `2 ^ 32` at every
step where the JS engine would coerce to a 32-bit integer; byte buffers are
`List Nat` of values below 256; fallible code is modelled with `Except`.
-/

/-- Byte buffers (`Buffer` in the source): a list of byte values. -/
abbrev Buffer := List Nat

/-- Modulus for JavaScript 32-bit bitwise coercions. -/
def M32 : Nat := 4294967296

/-! ## util/hashes.js -/

/-- Set of byte values excluded from fingerprint hashing
(`MURMUR_SKIP_BYTES` in `util/hashes.js`): tab, LF, CR, space. -/
def MURMUR_SKIP_BYTES (b : Nat) : Bool :=
  b == 9 || b == 10 || b == 13 || b == 32

/-- Multiplication by the MurmurHash2 constant `0x5bd1e995` modulo `2 ^ 32`,
written exactly as the 16-bit split-product used by the `murmurhash` npm
package, which keeps every intermediate inside double precision:
`((k & 0xffff) * M) + ((((k >>> 16) * M) & 0xffff) << 16)`, reduced mod
`2 ^ 32` as the following JS bitwise operation would. -/
def mmul (k : Nat) : Nat :=
  ((k % 65536) * 1540483477 + ((k / 65536 * 1540483477) % 65536) * 65536) % M32

/-- Tail `switch` of MurmurHash2: mixes the last (at most three) character
codes into the state with fall-through, then multiplies.  Lists of length
four or more never reach this function. -/
def mmTail (h : Nat) : List Nat → Nat
  | [] => h
  | [c0] => mmul (h ^^^ (c0 % 256))
  | [c0, c1] => mmul ((h ^^^ (c1 % 256) * 256) ^^^ (c0 % 256))
  | [c0, c1, c2] => mmul (((h ^^^ (c2 % 256) * 65536) ^^^ (c1 % 256) * 256) ^^^ (c0 % 256))
  | _ => h

/-- Body `while (l >= 4)` loop of MurmurHash2: consumes four character
codes at a time, assembling the little-endian 32-bit word `k`, mixing it,
and folding it into the state `h`. -/
def mmBody : List Nat → Nat → Nat
  | c0 :: c1 :: c2 :: c3 :: rest, h =>
    let k0 := (c0 % 256) + (c1 % 256) * 256 + (c2 % 256) * 65536 + (c3 % 256) * 16777216
    let k1 := mmul k0
    let k2 := k1 ^^^ (k1 / 16777216)
    let k3 := mmul k2
    mmBody rest ((mmul h) ^^^ k3)
  | tail, h => mmTail h tail

/-- MurmurHash v2 of a sequence of character codes with the given seed
(the `murmurhash` npm package's `v2` function, operating on
`charCodeAt` values). -/
def murmurhashV2 (codes : List Nat) (seed : Nat) : Nat :=
  let h0 := (seed % M32) ^^^ (codes.length % M32)
  let h1 := mmBody codes h0
  let h2 := h1 ^^^ (h1 / 8192)
  let h3 := mmul h2
  h3 ^^^ (h3 / 32768)

/-- Fingerprint hash (`exports.murmurhash` in `util/hashes.js`): every
byte in `MURMUR_SKIP_BYTES` is removed from the input, the remaining bytes
become a character sequence, and MurmurHash v2 is applied with the literal
seed `1` - the `seed` parameter of the export is never forwarded. -/
def murmurhash (inputBuffer : Buffer) (seed : Nat := 1) : Nat :=
  let output := inputBuffer.filter (fun b => !MURMUR_SKIP_BYTES b)
  murmurhashV2 output 1

/-! ### SHA-1 (the `sha1` npm package delegates to the standard algorithm
over the raw bytes of the buffer and renders a lowercase hex digest). -/

/-- Left rotation of a 32-bit word by `n` bits. -/
def rotl32 (n x : Nat) : Nat :=
  ((x * 2 ^ n) % M32) ||| (x % M32 / 2 ^ (32 - n))

/-- SHA-1 message padding: append `0x80`, zero bytes until the length is
56 mod 64, then the original bit length as eight big-endian bytes. -/
def sha1Pad (msg : List Nat) : List Nat :=
  let L := msg.length
  let k := (120 - (L + 1) % 64) % 64
  let bitLen := 8 * L
  msg ++ [128] ++ List.replicate k 0 ++
    [bitLen / 2 ^ 56 % 256, bitLen / 2 ^ 48 % 256, bitLen / 2 ^ 40 % 256,
     bitLen / 2 ^ 32 % 256, bitLen / 2 ^ 24 % 256, bitLen / 2 ^ 16 % 256,
     bitLen / 2 ^ 8 % 256, bitLen % 256]

/-- Group bytes into big-endian 32-bit words. -/
def bytesToWords : List Nat → List Nat
  | b0 :: b1 :: b2 :: b3 :: rest =>
    ((b0 % 256) * 16777216 + (b1 % 256) * 65536 + (b2 % 256) * 256 + b3 % 256)
      :: bytesToWords rest
  | _ => []

/-- Extend a 16-word chunk: append `fuel` further words, each the 1-bit
rotation of the xor of the words 3, 8, 14 and 16 positions back. -/
def sha1Extend (ws : List Nat) : Nat → List Nat
  | 0 => ws
  | fuel + 1 =>
    let n := ws.length
    let w := rotl32 1 ((ws.getD (n - 3) 0) ^^^ (ws.getD (n - 8) 0) ^^^
                       (ws.getD (n - 14) 0) ^^^ (ws.getD (n - 16) 0))
    sha1Extend (ws ++ [w]) fuel

/-- Round function of SHA-1 for round `t`. -/
def sha1F (t b c d : Nat) : Nat :=
  if t < 20 then (b &&& c) ||| ((M32 - 1 - b % M32) &&& d)
  else if t < 40 then b ^^^ c ^^^ d
  else if t < 60 then (b &&& c) ||| (b &&& d) ||| (c &&& d)
  else b ^^^ c ^^^ d

/-- Round constant of SHA-1 for round `t`. -/
def sha1K (t : Nat) : Nat :=
  if t < 20 then 1518500249
  else if t < 40 then 1859775393
  else if t < 60 then 2400959708
  else 3395469782

/-- Main compression loop of SHA-1: one step per extended word. -/
def sha1Rounds : Nat → List Nat → Nat × Nat × Nat × Nat × Nat → Nat × Nat × Nat × Nat × Nat
  | _, [], st => st
  | t, w :: rest, (a, b, c, d, e) =>
    let temp := (rotl32 5 a + sha1F t b c d + e + sha1K t + w) % M32
    sha1Rounds (t + 1) rest (temp, a, rotl32 30 b, c, d)

/-- Fold the SHA-1 compression function over `nchunks` 16-word chunks. -/
def sha1Chunks (h : Nat × Nat × Nat × Nat × Nat) (ws : List Nat) : Nat → Nat × Nat × Nat × Nat × Nat
  | 0 => h
  | n + 1 =>
    let chunk := sha1Extend (ws.take 16) 64
    let (h0, h1, h2, h3, h4) := h
    let (a, b, c, d, e) := sha1Rounds 0 chunk h
    sha1Chunks ((h0 + a) % M32, (h1 + b) % M32, (h2 + c) % M32, (h3 + d) % M32, (h4 + e) % M32)
      (ws.drop 16) n

/-- Hexadecimal digit character for a value below 16. -/
def hexDigit (n : Nat) : Char :=
  if n < 10 then Char.ofNat (48 + n) else Char.ofNat (87 + n)

/-- Lowercase 8-digit hexadecimal rendering of a 32-bit word. -/
def wordToHex (w : Nat) : String :=
  String.mk ((List.range 8).map (fun i => hexDigit (w / 16 ^ (7 - i) % 16)))

/-- SHA-1 digest (`exports.sha1` in `util/hashes.js`): lowercase hex
string of the 160-bit digest of the buffer's bytes. -/
def sha1 (inputBuffer : Buffer) : String :=
  let ws := bytesToWords (sha1Pad inputBuffer)
  let (h0, h1, h2, h3, h4) :=
    sha1Chunks (1732584193, 4023233417, 2562383102, 271733878, 3285377520) ws (ws.length / 16)
  wordToHex h0 ++ wordToHex h1 ++ wordToHex h2 ++ wordToHex h3 ++ wordToHex h4

/-! ## util/downloaders.js : data model -/

/-- Digest values flowing through the system: the fingerprint hash
produces a number, the SHA-1 hash produces a hex string, and accepted
values from manifests are of the matching kind. -/
inductive HashVal where
  | num (n : Nat)
  | str (s : String)
deriving DecidableEq, Repr

/-- Accepted-value field of a `HashDef` (`hashes: any | any[]` in the
source): either a single value or an array of values. -/
inductive HashValues where
  | single (v : HashVal)
  | multiple (vs : List HashVal)
deriving DecidableEq, Repr

/-- Hash definition (`HashDef` typedef): algorithm identifier plus the
accepted value or values. -/
structure HashDef where
  id : String
  hashes : HashValues
deriving DecidableEq, Repr

/-- File definition (`FileDef` typedef): the URL and the optional array
of hash definitions.  The destination path is opaque to the downloader
and omitted. -/
structure FileDef where
  url : String
  hashes : Option (List HashDef) := none
deriving DecidableEq, Repr

/-- Transport-level errors are represented by their message string. -/
abbrev TransportError := String

/-- A transport oracle: the outcome of the network request at each
attempt number (attempts are numbered from 1). -/
abbrev Transport := Nat → Except TransportError Buffer

/-- Errors a single file download can end with: a transport failure, an
unknown hash algorithm (`No hash function found for ...`), or a digest
mismatch (`Hash sum mismatch ...`). -/
inductive DlError where
  | transport (e : TransportError)
  | noHashFunction (id : String)
  | hashMismatch (expected : HashValues) (got : HashVal)
deriving DecidableEq, Repr

/-- Registry of hash functions (the `hashFuncs` object of
`util/downloaders.js`): `murmurhash` and `sha1` from `util/hashes.js`,
every other identifier unknown. -/
def hashFuncs : String → Option (Buffer → HashVal)
  | "murmurhash" => some (fun b => HashVal.num (murmurhash b))
  | "sha1" => some (fun b => HashVal.str (sha1 b))
  | _ => none

/-- Acceptance test of `__checkHash`'s comparison line: for an array,
membership (`Array.isArray(hashDef.hashes) && hashDef.hashes.includes(sum)`);
for a single value, equality (`hashDef.hashes == sum`).  The residual
loose-equality disjunct `hashDef.hashes == sum` on the array branch can
only fire through cross-type numeric coercion, which the digest values of
this program (numbers compared to numbers, hex strings to strings) never
exercise beyond membership. -/
def hashAccepts : HashValues → HashVal → Bool
  | HashValues.multiple vs, v => vs.contains v
  | HashValues.single w, v => w == v

/-- Accepted set of a `HashDef` value, read as a list. -/
def acceptedList : HashValues → List HashVal
  | HashValues.single v => [v]
  | HashValues.multiple vs => vs

/-- Options object accepted by the `ConcurrentRetryDownloader`
constructor; `none` models an absent (undefined) property. -/
structure DownloaderOptions where
  maxRetries : Option Nat := none
  readTimeout : Option Nat := none
  concurrency : Option Nat := none
  checkHashes : Option Bool := none
  json : Option Bool := none
deriving DecidableEq, Repr

/-- JavaScript `options.x || d` for numeric options: an absent value and
the falsy number 0 both select the default. -/
def jsOrNat : Option Nat → Nat → Nat
  | none, d => d
  | some 0, d => d
  | some (n + 1), _ => n + 1

/-- Resolved configuration state of a `ConcurrentRetryDownloader`
instance (the fields assigned in the constructor). -/
structure ConcurrentRetryDownloader where
  maxRetries : Nat
  readTimeout : Nat
  concurrency : Nat
  checkHashes : Bool
  json : Bool
deriving DecidableEq, Repr

/-- Constructor of `ConcurrentRetryDownloader` (lines 501-508):
`maxRetries = options.maxRetries || 5`, `readTimeout = options.readTimeout
|| 30000`, `concurrency = options.concurrency || 5`, `checkHashes =
options.checkHashes == undefined ? true : options.checkHashes`,
`json = options.json`. -/
def ConcurrentRetryDownloader.ofOptions (options : DownloaderOptions := {}) :
    ConcurrentRetryDownloader where
  maxRetries := jsOrNat options.maxRetries 5
  readTimeout := jsOrNat options.readTimeout 30000
  concurrency := jsOrNat options.concurrency 5
  checkHashes := match options.checkHashes with
    | none => true
    | some b => b
  json := options.json.getD false

/-- Lifecycle events emitted by the downloader: `start {fileDef}`,
`retry {fileDef, attempt, error}`, `complete {fileDef, index, total,
output}`. -/
inductive Event where
  | start (fileDef : FileDef)
  | retry (fileDef : FileDef) (attempt : Nat) (error : DlError)
  | complete (fileDef : FileDef) (index : Nat) (total : Nat) (output : Buffer)
deriving DecidableEq, Repr

/-- Rejection payload of a failed file download
(`reject({fileDef, error})`). -/
structure Failure where
  fileDef : FileDef
  error : DlError
deriving DecidableEq, Repr

/-! ## util/downloaders.js : ConcurrentRetryDownloader.download -/

/-- Hash checking pass of `__checkHash` (lines 635-646): unknown
algorithm throws `No hash function found`, then the computed sum is
compared against the accepted values and a mismatch throws
`Hash sum mismatch`. -/
def ConcurrentRetryDownloader.checkHash (buffer : Buffer) (hashDef : HashDef) :
    Except DlError Unit :=
  match hashFuncs hashDef.id with
  | none => Except.error (DlError.noHashFunction hashDef.id)
  | some f =>
    let sum := f buffer
    if hashAccepts hashDef.hashes sum then Except.ok ()
    else Except.error (DlError.hashMismatch hashDef.hashes sum)

/-- Sequential `forEach` over the hash definitions of a file: the first
throwing check aborts the pass (line 605). -/
def checkAll (buffer : Buffer) : List HashDef → Except DlError Unit
  | [] => Except.ok ()
  | hd :: rest =>
    match ConcurrentRetryDownloader.checkHash buffer hd with
    | Except.ok () => checkAll buffer rest
    | Except.error e => Except.error e

/-- Outcome of one attempt of the `retry` closure in `download` (lines
590-610): the request either fails at the transport, or yields a buffer
which - when `checkHashes` is set and the file carries a `hashes` array -
must pass every hash check; a hash exception thrown inside the `.then`
callback lands in the same `.catch` as a transport error. -/
def attemptOutcome (cfg : ConcurrentRetryDownloader) (fileDef : FileDef)
    (res : Except TransportError Buffer) : Except DlError Buffer :=
  match res with
  | Except.error e => Except.error (DlError.transport e)
  | Except.ok buffer =>
    if cfg.checkHashes && fileDef.hashes.isSome then
      match checkAll buffer (fileDef.hashes.getD []) with
      | Except.ok () => Except.ok buffer
      | Except.error e => Except.error e
    else Except.ok buffer

/-- Terminal result of one file's retry loop: the delivered buffer or the
terminal error, together with the number of attempts performed (the final
value of `counter`). -/
inductive FileResult where
  | success (output : Buffer) (attempts : Nat)
  | failure (error : DlError) (attempts : Nat)
deriving DecidableEq, Repr

/-- Whether a `FileResult` is a success. -/
def FileResult.isSuccess : FileResult → Bool
  | FileResult.success _ _ => true
  | FileResult.failure _ _ => false

/-- Retry loop of `download` (lines 584-624): `counter` is incremented at
the top of each call; on an attempt failure, when `counter >=
this.maxRetries` the file rejects with `{fileDef, error}`, otherwise a
`retry` event `(attempt := counter, error)` is recorded and the request is
re-issued with the incremented counter (`setTimeout(() => retry(counter))`).
Returns the recorded retry events and the terminal result. -/
def retryLoop (cfg : ConcurrentRetryDownloader) (fileDef : FileDef)
    (t : Transport) (counter : Nat) : List (Nat × DlError) × FileResult :=
  let c := counter + 1
  match attemptOutcome cfg fileDef (t c) with
  | Except.ok buffer => ([], FileResult.success buffer c)
  | Except.error e =>
    if c ≥ cfg.maxRetries then ([], FileResult.failure e c)
    else
      let r := retryLoop cfg fileDef t c
      ((c, e) :: r.1, r.2)
termination_by cfg.maxRetries - counter
decreasing_by simp only [not_le] at *; omega

/-- Full event record and outcome of one file's processing inside
`download` (lines 580-625): a `start` event, the recorded `retry` events,
and - on success - a `complete` event carrying the shared completion
counter `countDownloadedFiles` (post-incremented) and the batch total.
Returns the events, the updated completion counter, and the rejection
payload when the file failed. -/
def processFile (cfg : ConcurrentRetryDownloader) (fileDef : FileDef)
    (t : Transport) (counter total : Nat) :
    List Event × Nat × Option Failure :=
  let r := retryLoop cfg fileDef t 0
  let retryEvents := r.1.map (fun p => Event.retry fileDef p.1 p.2)
  match r.2 with
  | FileResult.success buffer _ =>
    (Event.start fileDef :: retryEvents ++ [Event.complete fileDef counter total buffer],
     counter + 1, none)
  | FileResult.failure e _ =>
    (Event.start fileDef :: retryEvents, counter, some ⟨fileDef, e⟩)

/-- Batch run of `download` over the files in completion order, threading
the shared `countDownloadedFiles` counter and keeping the first observed
rejection.  `Promise.map` schedules the per-file promises concurrently
(bounded by `concurrency`, see `PoolStep` below) and settles with the
first rejection while letting started siblings run on; the model serialises
the per-file event streams in the order the files settle, which the
enclosing theorems quantify over. -/
def downloadRun (cfg : ConcurrentRetryDownloader) (total : Nat) :
    List (FileDef × Transport) → Nat → List Event × Option Failure
  | [], _ => ([], none)
  | (fileDef, t) :: rest, counter =>
    let step := processFile cfg fileDef t counter total
    let restRun := downloadRun cfg total rest step.2.1
    (step.1 ++ restRun.1, step.2.2 <|> restRun.2)

/-- Top-level `download(files)` (lines 573-627): runs every file with the
batch total `files.length` and the completion counter starting at 0;
resolves with no payload when every file succeeded, rejects with the
first observed `{fileDef, error}` otherwise. -/
def ConcurrentRetryDownloader.download (cfg : ConcurrentRetryDownloader)
    (files : List (FileDef × Transport)) : List Event × Except Failure Unit :=
  let run := downloadRun cfg files.length files 0
  (run.1, match run.2 with
    | some f => Except.error f
    | none => Except.ok ())

/-- Completion ordinals carried by the `complete` events of an event
stream, in emission order. -/
def completeIndices (evs : List Event) : List Nat :=
  evs.filterMap (fun e => match e with
    | Event.complete _ i _ _ => some i
    | _ => none)

/-! ## util/downloaders.js : retryRequest -/

/-- Inner `retry` closure of `retryRequest` (lines 656-674), observed for
`fuel` attempts: `counter` models the default parameter (`retry(counter =
0)` with `counter++` at the top), `attempt` numbers the requests issued so
far for the transport oracle.  On failure the code rejects when `counter
== maxRetries` and otherwise re-issues the request via `retry()` - with no
argument, so the recursive call restarts `counter` from the default.
`none` means the promise has not settled within `fuel` attempts. -/
def retryRequestRetry (maxRetries : Int) (t : Transport) :
    Nat → Option Nat → Nat → Option (Except TransportError Buffer)
  | _, _, 0 => none
  | attempt, counterArg, fuel + 1 =>
    let counter := counterArg.getD 0 + 1
    match t attempt with
    | Except.ok v => some (Except.ok v)
    | Except.error err =>
      if (counter : Int) = maxRetries then some (Except.error err)
      else retryRequestRetry maxRetries t (attempt + 1) none fuel

/-- Standalone `retryRequest(maxRetries = 5, ...args)` (lines 656-674):
starts the retry closure with no argument; the result is the settled
value, or `none` when the promise is still pending after `fuel`
attempts. -/
def retryRequest (maxRetries : Int := 5) (t : Transport) (fuel : Nat) :
    Option (Except TransportError Buffer) :=
  retryRequestRetry maxRetries t 1 none fuel

/-! ## Bounded-concurrency pool

Modelled from the spec: `download` delegates its scheduling to Bluebird's
`Promise.map(files, ..., {concurrency: this.concurrency})` (line 626);
the library itself is a third-party dependency whose code is not part of
this repository.  Its documented behaviour - at most `C` mapper promises
pending at once, a new file dispatched as each one settles - is modelled
as a transition system over the batch. -/

/-- Scheduling state of a batch: files not yet started, files currently
in flight, files settled. -/
structure PoolState where
  queued : List FileDef
  inFlight : List FileDef
  settled : List FileDef
deriving DecidableEq, Repr

/-- Transitions of the bounded pool: dispatch the next queued file while
fewer than `C` are in flight, or settle any in-flight file. -/
inductive PoolStep (C : Nat) : PoolState → PoolState → Prop where
  | dispatch (x : FileDef) (rest inF don : List FileDef) :
      inF.length < C →
      PoolStep C ⟨x :: rest, inF, don⟩ ⟨rest, x :: inF, don⟩
  | finish (q inF₁ inF₂ don : List FileDef) (x : FileDef) :
      PoolStep C ⟨q, inF₁ ++ x :: inF₂, don⟩ ⟨q, inF₁ ++ inF₂, x :: don⟩

/-- States reachable from an initial pool state. -/
inductive PoolReachable (C : Nat) (init : PoolState) : PoolState → Prop where
  | refl : PoolReachable C init init
  | tail {s s' : PoolState} :
      PoolReachable C init s → PoolStep C s s' → PoolReachable C init s'

/-- Number of files of a batch whose retry loop ends in success. -/
def successCount (cfg : ConcurrentRetryDownloader)
    (files : List (FileDef × Transport)) : Nat :=
  files.countP (fun x => ((retryLoop cfg x.1 x.2 0).2).isSuccess)

/-! ## Helper lemmas -/

/-- Retry events contribute no completion ordinals. -/
theorem completeIndices_retryEvents (fd : FileDef) (l : List (Nat × DlError)) :
    completeIndices (l.map (fun p => Event.retry fd p.1 p.2)) = [] := by
  simp [completeIndices, List.filterMap_map, Function.comp]

/-- A complete event never occurs among retry events. -/
theorem complete_not_mem_retryEvents (fd fd' : FileDef) (l : List (Nat × DlError))
    (i T : Nat) (b : Buffer) :
    Event.complete fd i T b ∉ l.map (fun p => Event.retry fd' p.1 p.2) := by
  intro hmem
  obtain ⟨p, _, hp⟩ := List.mem_map.mp hmem
  exact Event.noConfusion hp

/-- When every attempt's outcome is an error, the retry loop started below
`maxRetries` records one retry event per attempt strictly before
`maxRetries` and fails at attempt `maxRetries` with that attempt's
error. -/
theorem retryLoop_allFail (cfg : ConcurrentRetryDownloader) (fd : FileDef)
    (t : Transport) (err : Nat → DlError)
    (h : ∀ c, attemptOutcome cfg fd (t c) = Except.error (err c)) :
    ∀ counter, counter < cfg.maxRetries →
      retryLoop cfg fd t counter =
        ((List.range' (counter + 1) (cfg.maxRetries - (counter + 1))).map
            (fun c => (c, err c)),
          FileResult.failure (err cfg.maxRetries) cfg.maxRetries) := by
  have H : ∀ n counter, cfg.maxRetries - counter ≤ n → counter < cfg.maxRetries →
      retryLoop cfg fd t counter =
        ((List.range' (counter + 1) (cfg.maxRetries - (counter + 1))).map
            (fun c => (c, err c)),
          FileResult.failure (err cfg.maxRetries) cfg.maxRetries) := by
    intro n
    induction n with
    | zero => intro counter hle hlt; omega
    | succ n ih =>
      intro counter hle hlt
      rw [retryLoop]
      simp only [h]
      by_cases hc : counter + 1 ≥ cfg.maxRetries
      · have hm : cfg.maxRetries = counter + 1 := by omega
        simp [hc, hm]
      · push_neg at hc
        rw [if_neg (by omega)]
        rw [ih (counter + 1) (by omega) (by omega)]
        have hr : List.range' (counter + 1) (cfg.maxRetries - (counter + 1)) =
            (counter + 1) :: List.range' (counter + 2) (cfg.maxRetries - (counter + 2)) := by
          have he : cfg.maxRetries - (counter + 1) = (cfg.maxRetries - (counter + 2)) + 1 := by
            omega
          rw [he, List.range'_succ]
        rw [hr]
        simp
  exact fun counter hlt => H _ counter le_rfl hlt

/-- A successful attempt outcome for a file carrying hash definitions,
with checking enabled, implies the buffer passed every hash check. -/
theorem attemptOutcome_ok_checkAll (cfg : ConcurrentRetryDownloader) (fd : FileDef)
    (hch : cfg.checkHashes = true) (hds : List HashDef) (hh : fd.hashes = some hds)
    (res : Except TransportError Buffer) (b : Buffer)
    (hok : attemptOutcome cfg fd res = Except.ok b) :
    checkAll b hds = Except.ok () := by
  cases res with
  | error e => exact absurd hok (by simp [attemptOutcome])
  | ok buffer =>
    simp only [attemptOutcome, hch, hh, Option.isSome_some, Bool.and_self,
      Option.getD_some, if_true] at hok
    split at hok
    · next heq =>
      cases hok
      exact heq
    · exact absurd hok (by simp)

/-- The buffer delivered by a successful retry loop passed every hash
check (hash checking enabled, hash definitions present). -/
theorem retryLoop_success_checkAll (cfg : ConcurrentRetryDownloader) (fd : FileDef)
    (t : Transport) (hch : cfg.checkHashes = true) (hds : List HashDef)
    (hh : fd.hashes = some hds) :
    ∀ counter b a, (retryLoop cfg fd t counter).2 = FileResult.success b a →
      checkAll b hds = Except.ok () := by
  have H : ∀ n counter, cfg.maxRetries - counter ≤ n →
      ∀ b a, (retryLoop cfg fd t counter).2 = FileResult.success b a →
      checkAll b hds = Except.ok () := by
    intro n
    induction n with
    | zero =>
      intro counter hle b a hs
      rw [retryLoop] at hs
      split at hs
      · next buffer heq =>
        simp only at hs
        cases hs
        exact attemptOutcome_ok_checkAll cfg fd hch hds hh _ _ heq
      · next e heq =>
        split at hs
        · exact absurd hs (by simp)
        · next hc => omega
    | succ n ih =>
      intro counter hle b a hs
      rw [retryLoop] at hs
      split at hs
      · next buffer heq =>
        simp only at hs
        cases hs
        exact attemptOutcome_ok_checkAll cfg fd hch hds hh _ _ heq
      · next e heq =>
        split at hs
        · exact absurd hs (by simp)
        · next hc =>
          simp only at hs
          exact ih (counter + 1) (by omega) b a hs
  exact fun counter => H _ counter le_rfl

/-- Completion ordinals of a batch run started at counter `k` are exactly
`k, k+1, ...`, one per successful file, in settlement order. -/
theorem downloadRun_indices (cfg : ConcurrentRetryDownloader) (total : Nat) :
    ∀ (files : List (FileDef × Transport)) (k : Nat),
      completeIndices (downloadRun cfg total files k).1 =
        List.range' k (successCount cfg files) := by
  intro files
  induction files with
  | nil => intro k; simp [downloadRun, completeIndices, successCount]
  | cons x rest ih =>
    intro k
    obtain ⟨fd, t⟩ := x
    rcases hr : retryLoop cfg fd t 0 with ⟨revs, res⟩
    cases res with
    | success b a =>
      have hsc : successCount cfg ((fd, t) :: rest) = successCount cfg rest + 1 := by
        simp [successCount, List.countP_cons, hr, FileResult.isSuccess]
      simp only [downloadRun, processFile, hr]
      simp only [completeIndices, List.filterMap_append] at *
      simp only [hsc, List.range'_succ]
      simp [completeIndices_retryEvents, ih, completeIndices]
    | failure e a =>
      have hsc : successCount cfg ((fd, t) :: rest) = successCount cfg rest := by
        simp [successCount, List.countP_cons, hr, FileResult.isSuccess]
      simp only [downloadRun, processFile, hr]
      simp only [hsc]
      simp only [completeIndices, List.filterMap_append] at *
      simp [completeIndices_retryEvents, ih, completeIndices]

/-- Every complete event of a batch run carries the `total` the run was
started with. -/
theorem downloadRun_total (cfg : ConcurrentRetryDownloader) (total : Nat) :
    ∀ (files : List (FileDef × Transport)) (k : Nat) (fd : FileDef) (i T : Nat) (b : Buffer),
      Event.complete fd i T b ∈ (downloadRun cfg total files k).1 → T = total := by
  intro files
  induction files with
  | nil => intro k fd i T b h; simp [downloadRun] at h
  | cons x rest ih =>
    intro k fd i T b h
    obtain ⟨fd', t⟩ := x
    rcases hr : retryLoop cfg fd' t 0 with ⟨revs, res⟩
    cases res with
    | success b' a =>
      simp only [downloadRun, processFile, hr, List.cons_append, List.mem_cons,
        List.mem_append] at h
      rcases h with h | (h | h | h) | h
      · exact absurd h (by simp)
      · exact absurd h (complete_not_mem_retryEvents fd fd' revs i T b)
      · injection h with h1 h2 h3 h4
      · exact absurd h (by simp)
      · exact ih _ fd i T b h
    | failure e a =>
      simp only [downloadRun, processFile, hr, List.cons_append, List.mem_cons,
        List.mem_append] at h
      rcases h with h | h
      · exact absurd h.symm (Event.noConfusion)
      rcases h with h | h
      · exact absurd h (complete_not_mem_retryEvents fd fd' revs i T b)
      · exact ih _ fd i T b h

/-- A batch run over files that all succeed settles with no rejection. -/
theorem downloadRun_none_of_allSuccess (cfg : ConcurrentRetryDownloader) (total : Nat) :
    ∀ (files : List (FileDef × Transport)) (k : Nat),
      (∀ x ∈ files, ((retryLoop cfg x.1 x.2 0).2).isSuccess = true) →
      (downloadRun cfg total files k).2 = none := by
  intro files
  induction files with
  | nil => intro k _; simp [downloadRun]
  | cons x rest ih =>
    intro k hall
    obtain ⟨fd, t⟩ := x
    rcases hr : retryLoop cfg fd t 0 with ⟨revs, res⟩
    cases res with
    | success b a =>
      simp only [downloadRun, processFile, hr]
      exact ih _ (fun y hy => hall y (List.mem_cons_of_mem _ hy))
    | failure e a =>
      have := hall (fd, t) (List.mem_cons_self _ _)
      rw [hr] at this
      simp [FileResult.isSuccess] at this

/-- The rejection of a batch run is the first settled failure: a prefix of
successes followed by a failing file fixes the rejection payload to that
file and its terminal error. -/
theorem downloadRun_first_failure (cfg : ConcurrentRetryDownloader) (total : Nat) :
    ∀ (pre : List (FileDef × Transport)) (k : Nat) (fd : FileDef) (t : Transport)
      (post : List (FileDef × Transport)) (e : DlError) (a : Nat),
      (∀ x ∈ pre, ((retryLoop cfg x.1 x.2 0).2).isSuccess = true) →
      (retryLoop cfg fd t 0).2 = FileResult.failure e a →
      (downloadRun cfg total (pre ++ (fd, t) :: post) k).2 = some ⟨fd, e⟩ := by
  intro pre
  induction pre with
  | nil =>
    intro k fd t post e a _ hf
    rcases hr : retryLoop cfg fd t 0 with ⟨revs, res⟩
    rw [hr] at hf
    simp only at hf
    subst hf
    simp [downloadRun, processFile, hr, Option.orElse]
  | cons x rest ih =>
    intro k fd t post e a hall hf
    obtain ⟨fd', t'⟩ := x
    rcases hr : retryLoop cfg fd' t' 0 with ⟨revs, res⟩
    cases res with
    | success b a' =>
      simp only [List.cons_append, downloadRun, processFile, hr]
      exact ih _ fd t post e a (fun y hy => hall y (List.mem_cons_of_mem _ hy)) hf
    | failure e' a' =>
      have := hall (fd', t') (List.mem_cons_self _ _)
      rw [hr] at this
      simp [FileResult.isSuccess] at this

/-- Every file whose retry loop succeeds has a complete event carrying its
buffer somewhere in the batch run's event stream. -/
theorem downloadRun_complete_mem (cfg : ConcurrentRetryDownloader) (total : Nat) :
    ∀ (files : List (FileDef × Transport)) (k : Nat) (fd : FileDef) (t : Transport)
      (b : Buffer) (a : Nat),
      (fd, t) ∈ files → (retryLoop cfg fd t 0).2 = FileResult.success b a →
      ∃ i, Event.complete fd i total b ∈ (downloadRun cfg total files k).1 := by
  intro files
  induction files with
  | nil => intro k fd t b a h; simp at h
  | cons x rest ih =>
    intro k fd t b a hmem hs
    obtain ⟨fd', t'⟩ := x
    rcases List.mem_cons.mp hmem with heq | htail
    · cases heq
      rcases hr : retryLoop cfg fd t 0 with ⟨revs, res⟩
      rw [hr] at hs
      simp only at hs
      subst hs
      refine ⟨k, ?_⟩
      simp [downloadRun, processFile, hr]
    · rcases hr : retryLoop cfg fd' t' 0 with ⟨revs, res⟩
      have step : ∀ k', ∃ i, Event.complete fd i total b ∈ (downloadRun cfg total rest k').1 :=
        fun k' => ih k' fd t b a htail hs
      cases res with
      | success b' a' =>
        obtain ⟨i, hi⟩ := step (k + 1)
        refine ⟨i, ?_⟩
        simp [downloadRun, processFile, hr, hi]
      | failure e' a' =>
        obtain ⟨i, hi⟩ := step k
        refine ⟨i, ?_⟩
        simp [downloadRun, processFile, hr, hi]

/-- Every buffer delivered by a complete event of a batch run passed all
of its file's hash checks while hash checking was enabled. -/
theorem downloadRun_complete_checked (cfg : ConcurrentRetryDownloader) (total : Nat)
    (hch : cfg.checkHashes = true) :
    ∀ (files : List (FileDef × Transport)) (k : Nat) (fd : FileDef) (i T : Nat)
      (b : Buffer) (hds : List HashDef),
      Event.complete fd i T b ∈ (downloadRun cfg total files k).1 →
      fd.hashes = some hds → checkAll b hds = Except.ok () := by
  intro files
  induction files with
  | nil => intro k fd i T b hds h _; simp [downloadRun] at h
  | cons x rest ih =>
    intro k fd i T b hds h hh
    obtain ⟨fd', t⟩ := x
    rcases hr : retryLoop cfg fd' t 0 with ⟨revs, res⟩
    cases res with
    | success b' a =>
      simp only [downloadRun, processFile, hr, List.cons_append, List.mem_cons,
        List.mem_append] at h
      rcases h with h | (h | h | h) | h
      · exact absurd h (by simp)
      · exact absurd h (complete_not_mem_retryEvents fd fd' revs i T b)
      · injection h with h1 h2 h3 h4
        subst h1
        subst h4
        have hres : (retryLoop cfg fd t 0).2 = FileResult.success b a := by
          rw [hr]
        exact retryLoop_success_checkAll cfg fd t hch hds hh 0 b a hres
      · exact absurd h (by simp)
      · exact ih _ fd i T b hds h hh
    | failure e a =>
      simp only [downloadRun, processFile, hr, List.cons_append, List.mem_cons,
        List.mem_append] at h
      rcases h with h | h
      · exact absurd h.symm (Event.noConfusion)
      rcases h with h | h
      · exact absurd h (complete_not_mem_retryEvents fd fd' revs i T b)
      · exact ih _ fd i T b hds h hh

/-! ## Claim theorems -/

/-- C1: for a FileRequest whose fetch fails on every attempt with
`maxRetries = N` (N ≥ 1), the download emits exactly N-1 retry events with
attempt numbers 1..N-1, each carrying the error of the attempt just
failed, then rejects with `{fileDef, lastError}`; the fetch is attempted
exactly N times. -/
theorem C1_exhausted_transport_retries (cfg : ConcurrentRetryDownloader)
    (fd : FileDef) (t : Transport) (te : Nat → TransportError) (N k T : Nat)
    (hN : cfg.maxRetries = N) (h1 : 1 ≤ N)
    (ht : ∀ c, t c = Except.error (te c)) :
    processFile cfg fd t k T =
      (Event.start fd ::
        (List.range' 1 (N - 1)).map
          (fun c => Event.retry fd c (DlError.transport (te c))),
        k, some ⟨fd, DlError.transport (te N)⟩) ∧
    (retryLoop cfg fd t 0).2 =
      FileResult.failure (DlError.transport (te N)) N := by
  subst hN
  have herr : ∀ c, attemptOutcome cfg fd (t c) =
      Except.error (DlError.transport (te c)) := by
    intro c
    rw [ht c]
    rfl
  have hloop := retryLoop_allFail cfg fd t (fun c => DlError.transport (te c))
    herr 0 (by omega)
  constructor
  · simp [processFile, hloop, List.map_map, Function.comp]
  · rw [hloop]

def cfgW1 : ConcurrentRetryDownloader :=
  ConcurrentRetryDownloader.ofOptions {maxRetries := some 3}

def fdW1 : FileDef := {url := "https://example.invalid/a.jar"}

def tW1 : Transport := fun c => Except.error (String.append "timeout " (toString c))

/-- Witness for C1 at a concrete input: three always-failing attempts. -/
theorem C1_witness :
    (cfgW1.maxRetries = 3 ∧ 1 ≤ 3 ∧
      (∀ c, tW1 c = Except.error (String.append "timeout " (toString c)))) ∧
    processFile cfgW1 fdW1 tW1 0 1 =
      (Event.start fdW1 ::
        (List.range' 1 (3 - 1)).map
          (fun c => Event.retry fdW1 c (DlError.transport (String.append "timeout " (toString c)))),
        0, some ⟨fdW1, DlError.transport (String.append "timeout " (toString 3))⟩) ∧
    (retryLoop cfgW1 fdW1 tW1 0).2 =
      FileResult.failure (DlError.transport (String.append "timeout " (toString 3))) 3 :=
  ⟨⟨rfl, by omega, fun c => rfl⟩,
    C1_exhausted_transport_retries cfgW1 fdW1 tW1
      (fun c => String.append "timeout " (toString c)) 3 0 1 rfl (by omega) (fun c => rfl)⟩

def hdsC2 : List HashDef := [{id := "bogus", hashes := HashValues.single (HashVal.num 0)}]

def fdC2 : FileDef := {url := "https://example.invalid/mod.jar", hashes := some hdsC2}

def cfgC2 : ConcurrentRetryDownloader :=
  ConcurrentRetryDownloader.ofOptions {maxRetries := some 2}

def tC2 : Transport := fun _ => Except.ok [1, 2, 3]

/-- Counterexample to C2 as stated: an unknown-algorithm error is not
fatal for the attempt - the downloader emits a retry event carrying the
config error and fetches the URL a second time (the terminal failure
records two attempts). -/
theorem C2_counterexample :
    Event.retry fdC2 1 (DlError.noHashFunction "bogus") ∈
      (processFile cfgC2 fdC2 tC2 0 1).1 ∧
    (retryLoop cfgC2 fdC2 tC2 0).2 =
      FileResult.failure (DlError.noHashFunction "bogus") 2 := by
  have hloop : retryLoop cfgC2 fdC2 tC2 0 =
      ([(1, DlError.noHashFunction "bogus")],
        FileResult.failure (DlError.noHashFunction "bogus") 2) := by
    simp [retryLoop, cfgC2, fdC2, tC2, hdsC2, ConcurrentRetryDownloader.ofOptions,
      jsOrNat, attemptOutcome, checkAll, ConcurrentRetryDownloader.checkHash, hashFuncs]
  constructor
  · simp [processFile, hloop]
  · rw [hloop]

/-- C2 amended: a hash-check failure (unknown algorithm or digest
mismatch) thrown inside the response handler is caught by the same
handler as a transport failure; when it recurs on every attempt the
downloader emits N-1 retry events carrying the hash error, re-fetching the
URL each time, and rejects with the hash error after N attempts. -/
theorem C2_hash_errors_retried (cfg : ConcurrentRetryDownloader) (fd : FileDef)
    (t : Transport) (hds : List HashDef) (bufs : Nat → Buffer)
    (he : Nat → DlError) (N k T : Nat)
    (hch : cfg.checkHashes = true) (hh : fd.hashes = some hds)
    (hN : cfg.maxRetries = N) (h1 : 1 ≤ N)
    (ht : ∀ c, t c = Except.ok (bufs c))
    (hfail : ∀ c, checkAll (bufs c) hds = Except.error (he c)) :
    processFile cfg fd t k T =
      (Event.start fd ::
        (List.range' 1 (N - 1)).map (fun c => Event.retry fd c (he c)),
        k, some ⟨fd, he N⟩) ∧
    (retryLoop cfg fd t 0).2 = FileResult.failure (he N) N := by
  subst hN
  have herr : ∀ c, attemptOutcome cfg fd (t c) = Except.error (he c) := by
    intro c
    rw [ht c]
    simp [attemptOutcome, hch, hh, hfail c]
  have hloop := retryLoop_allFail cfg fd t he herr 0 (by omega)
  constructor
  · simp [processFile, hloop, List.map_map, Function.comp]
  · rw [hloop]

/-- Witness for the amended C2 at a concrete input: a file with an
unknown hash algorithm and a transport that always succeeds. -/
theorem C2_witness :
    (cfgC2.checkHashes = true ∧ fdC2.hashes = some hdsC2 ∧
      cfgC2.maxRetries = 2 ∧ 1 ≤ 2 ∧
      (∀ c, tC2 c = Except.ok [1, 2, 3]) ∧
      (∀ (c : Nat), checkAll [1, 2, 3] hdsC2 =
        Except.error (DlError.noHashFunction "bogus"))) ∧
    processFile cfgC2 fdC2 tC2 0 1 =
      (Event.start fdC2 ::
        (List.range' 1 (2 - 1)).map
          (fun c => Event.retry fdC2 c (DlError.noHashFunction "bogus")),
        0, some ⟨fdC2, DlError.noHashFunction "bogus"⟩) ∧
    (retryLoop cfgC2 fdC2 tC2 0).2 =
      FileResult.failure (DlError.noHashFunction "bogus") 2 :=
  ⟨⟨rfl, rfl, rfl, by omega, fun c => rfl, fun c => rfl⟩,
    C2_hash_errors_retried cfgC2 fdC2 tC2 hdsC2 (fun _ => [1, 2, 3])
      (fun _ => DlError.noHashFunction "bogus") 2 0 1 rfl rfl rfl (by omega)
      (fun c => rfl) (fun c => rfl)⟩

/-- Boolean acceptance agrees with membership in the accepted set. -/
theorem hashAccepts_iff (hv : HashValues) (v : HashVal) :
    hashAccepts hv v = true ↔ v ∈ acceptedList hv := by
  cases hv with
  | single w =>
    simp only [hashAccepts, beq_iff_eq, acceptedList, List.mem_singleton]
    exact eq_comm
  | multiple vs => simp [hashAccepts, acceptedList]

/-- C3: for a recognized algorithm, the hash check succeeds iff the
computed digest is a member of the accepted set (a non-array accepted
value acting as a singleton); on failure it raises the integrity error,
and no complete event of a batch run carries a buffer that fails its
file's checks. -/
theorem C3_checkHash_membership :
    (∀ (buffer : Buffer) (hd : HashDef) (f : Buffer → HashVal),
        hashFuncs hd.id = some f →
        (ConcurrentRetryDownloader.checkHash buffer hd = Except.ok () ↔
          f buffer ∈ acceptedList hd.hashes)) ∧
    (∀ (buffer : Buffer) (hd : HashDef) (f : Buffer → HashVal),
        hashFuncs hd.id = some f → f buffer ∉ acceptedList hd.hashes →
        ConcurrentRetryDownloader.checkHash buffer hd =
          Except.error (DlError.hashMismatch hd.hashes (f buffer))) ∧
    (∀ (cfg : ConcurrentRetryDownloader) (files : List (FileDef × Transport))
        (fd : FileDef) (i T : Nat) (b : Buffer) (hds : List HashDef),
        cfg.checkHashes = true → fd.hashes = some hds →
        Event.complete fd i T b ∈ (cfg.download files).1 →
        checkAll b hds = Except.ok ()) := by
  refine ⟨?_, ?_, ?_⟩
  · intro buffer hd f hf
    simp only [ConcurrentRetryDownloader.checkHash, hf]
    cases hacc : hashAccepts hd.hashes (f buffer) with
    | false =>
      have : ¬ f buffer ∈ acceptedList hd.hashes := by
        rw [← hashAccepts_iff, hacc]
        simp
      simp [this]
    | true =>
      have := (hashAccepts_iff _ _).mp hacc
      simp [this]
  · intro buffer hd f hf hmem
    have hacc : hashAccepts hd.hashes (f buffer) = false := by
      rcases Bool.eq_false_or_eq_true (hashAccepts hd.hashes (f buffer)) with h | h
      · exact absurd ((hashAccepts_iff _ _).mp h) hmem
      · exact h
    simp [ConcurrentRetryDownloader.checkHash, hf, hacc]
  · intro cfg files fd i T b hds hch hh hmem
    exact downloadRun_complete_checked cfg files.length hch files 0 fd i T b hds hmem hh

def hdW3 : HashDef :=
  {id := "sha1",
   hashes := HashValues.single (HashVal.str "dbc2d1fed0dc37a70aea0f376958c802eddc0559")}

/-- Witness for C3 at a concrete input: the SHA-1 check of a concrete
buffer against a singleton accepted set. -/
theorem C3_witness :
    hashFuncs hdW3.id = some (fun b => HashVal.str (sha1 b)) ∧
    (ConcurrentRetryDownloader.checkHash [72, 101, 108] hdW3 = Except.ok () ↔
      HashVal.str (sha1 [72, 101, 108]) ∈ acceptedList hdW3.hashes) :=
  ⟨rfl, C3_checkHash_membership.1 [72, 101, 108] hdW3 (fun b => HashVal.str (sha1 b)) rfl⟩

set_option maxRecDepth 10000 in
/-- C4: the fingerprint hash strips the bytes 9, 10, 13 and 32 before
hashing with seed fixed at 1 - so the two example buffers fingerprint
identically, every buffer fingerprints like its filtered form, and the
SHA-1 digests of the two example buffers differ. -/
theorem C4_fingerprint_whitespace :
    murmurhash [72, 32, 101, 10, 108] = murmurhash [72, 101, 108] ∧
    (∀ (buf : Buffer) (seed : Nat),
      murmurhash buf seed =
        murmurhash (buf.filter (fun b => !MURMUR_SKIP_BYTES b)) seed) ∧
    sha1 [72, 32, 101, 10, 108] ≠ sha1 [72, 101, 108] := by
  refine ⟨by decide, ?_, by decide⟩
  intro buf seed
  simp [murmurhash, List.filter_filter]

/-- C5: when every request of a batch completes, the completion ordinals
form the strictly increasing sequence 0..N-1 in completion order - the
count of completions so far, not the request's input position - and every
complete event carries the batch total N. -/
theorem C5_completion_ordinals (cfg : ConcurrentRetryDownloader)
    (files : List (FileDef × Transport))
    (h : ∀ x ∈ files, ((retryLoop cfg x.1 x.2 0).2).isSuccess = true) :
    completeIndices (cfg.download files).1 = List.range files.length ∧
    (∀ (fd : FileDef) (i T : Nat) (b : Buffer),
      Event.complete fd i T b ∈ (cfg.download files).1 → T = files.length) := by
  constructor
  · have hsc : successCount cfg files = files.length := by
      rw [successCount]
      exact List.countP_eq_length.mpr h
    have hrun := downloadRun_indices cfg files.length files 0
    rw [hsc] at hrun
    rw [List.range_eq_range']
    exact hrun
  · intro fd i T b hmem
    exact downloadRun_total cfg files.length files 0 fd i T b hmem

def cfgW5 : ConcurrentRetryDownloader := ConcurrentRetryDownloader.ofOptions {}

def fdW5a : FileDef := {url := "https://example.invalid/a.jar"}

def fdW5b : FileDef := {url := "https://example.invalid/b.jar"}

def filesW5 : List (FileDef × Transport) :=
  [(fdW5a, fun _ => Except.ok [1]), (fdW5b, fun _ => Except.ok [2])]

/-- Witness for C5 at a concrete input: a batch of two always-succeeding
files. -/
theorem C5_witness :
    (∀ x ∈ filesW5, ((retryLoop cfgW5 x.1 x.2 0).2).isSuccess = true) ∧
    (completeIndices (cfgW5.download filesW5).1 = List.range filesW5.length ∧
      ∀ (fd : FileDef) (i T : Nat) (b : Buffer),
        Event.complete fd i T b ∈ (cfgW5.download filesW5).1 → T = filesW5.length) := by
  have hall : ∀ x ∈ filesW5, ((retryLoop cfgW5 x.1 x.2 0).2).isSuccess = true := by
    intro x hx
    simp only [filesW5, List.mem_cons, List.not_mem_nil, or_false] at hx
    rcases hx with hx | hx <;> subst hx <;>
      simp [retryLoop, cfgW5, fdW5a, fdW5b, ConcurrentRetryDownloader.ofOptions,
        jsOrNat, attemptOutcome, FileResult.isSuccess]
  exact ⟨hall, C5_completion_ordinals cfgW5 filesW5 hall⟩

/-- C6: with concurrency bound C ≥ 1, every state of the pool reachable
from a fresh batch keeps at most C files in flight, and whenever a file
is queued while fewer than C are in flight, dispatching it is a legal
step (sliding-window replenishment). -/
theorem C6_bounded_concurrency (C : Nat) (hC : 1 ≤ C) (batch : List FileDef)
    (s : PoolState) (h : PoolReachable C ⟨batch, [], []⟩ s) :
    s.inFlight.length ≤ C ∧
    (∀ (x : FileDef) (rest : List FileDef), s.queued = x :: rest →
      s.inFlight.length < C →
      PoolStep C s ⟨rest, x :: s.inFlight, s.settled⟩) := by
  constructor
  · induction h with
    | refl => simp
    | tail hreach hstep ih =>
      cases hstep with
      | dispatch x rest inF don hlt => simpa using hlt
      | finish q inF₁ inF₂ don x =>
        simp only [List.length_append, List.length_cons] at ih ⊢
        omega
  · intro x rest hq hlt
    obtain ⟨q, inF, don⟩ := s
    simp only at hq
    subst hq
    exact PoolStep.dispatch x rest inF don hlt

def fdW6 : FileDef := {url := "https://example.invalid/c.jar"}

/-- Witness for C6 at a concrete input: the initial state of a
single-file batch under concurrency bound 1. -/
theorem C6_witness :
    (1 ≤ 1) ∧
    ((PoolState.mk [fdW6] [] []).inFlight.length ≤ 1 ∧
      ∀ (x : FileDef) (rest : List FileDef),
        (PoolState.mk [fdW6] [] []).queued = x :: rest →
        (PoolState.mk [fdW6] [] []).inFlight.length < 1 →
        PoolStep 1 (PoolState.mk [fdW6] [] [])
          ⟨rest, x :: (PoolState.mk [fdW6] [] []).inFlight,
            (PoolState.mk [fdW6] [] []).settled⟩) :=
  ⟨le_rfl, C6_bounded_concurrency 1 le_rfl [fdW6] _ PoolReachable.refl⟩

/-- C7: a batch whose files all succeed resolves with no payload; a batch
whose first settled failure is a given file rejects with that file and
its error; and every successfully settling file's complete event is
emitted even when another file of the batch fails. -/
theorem C7_batch_failure_semantics :
    (∀ (cfg : ConcurrentRetryDownloader) (files : List (FileDef × Transport)),
        (∀ x ∈ files, ((retryLoop cfg x.1 x.2 0).2).isSuccess = true) →
        (cfg.download files).2 = Except.ok ()) ∧
    (∀ (cfg : ConcurrentRetryDownloader) (pre : List (FileDef × Transport))
        (fd : FileDef) (t : Transport) (post : List (FileDef × Transport))
        (e : DlError) (a : Nat),
        (∀ x ∈ pre, ((retryLoop cfg x.1 x.2 0).2).isSuccess = true) →
        (retryLoop cfg fd t 0).2 = FileResult.failure e a →
        (cfg.download (pre ++ (fd, t) :: post)).2 = Except.error ⟨fd, e⟩) ∧
    (∀ (cfg : ConcurrentRetryDownloader) (files : List (FileDef × Transport))
        (fd : FileDef) (t : Transport) (b : Buffer) (a : Nat),
        (fd, t) ∈ files → (retryLoop cfg fd t 0).2 = FileResult.success b a →
        ∃ i, Event.complete fd i files.length b ∈ (cfg.download files).1) := by
  refine ⟨?_, ?_, ?_⟩
  · intro cfg files hall
    have hnone := downloadRun_none_of_allSuccess cfg files.length files 0 hall
    simp [ConcurrentRetryDownloader.download, hnone]
  · intro cfg pre fd t post e a hall hf
    have hfst := downloadRun_first_failure cfg (pre ++ (fd, t) :: post).length
      pre 0 fd t post e a hall hf
    simp only [ConcurrentRetryDownloader.download]
    rw [hfst]
  · intro cfg files fd t b a hmem hs
    exact downloadRun_complete_mem cfg files.length files 0 fd t b a hmem hs

def cfgW7 : ConcurrentRetryDownloader :=
  ConcurrentRetryDownloader.ofOptions {maxRetries := some 1}

def fdW7 : FileDef := {url := "https://example.invalid/d.jar"}

def tW7 : Transport := fun _ => Except.error "boom"

/-- Witness for C7 at a concrete input: a single always-failing file
makes the batch reject with that file and its transport error. -/
theorem C7_witness :
    (∀ x ∈ ([] : List (FileDef × Transport)),
      ((retryLoop cfgW7 x.1 x.2 0).2).isSuccess = true) ∧
    (retryLoop cfgW7 fdW7 tW7 0).2 = FileResult.failure (DlError.transport "boom") 1 ∧
    (cfgW7.download ([] ++ (fdW7, tW7) :: [])).2 =
      Except.error ⟨fdW7, DlError.transport "boom"⟩ := by
  have h1 : ∀ x ∈ ([] : List (FileDef × Transport)),
      ((retryLoop cfgW7 x.1 x.2 0).2).isSuccess = true := by simp
  have h2 : (retryLoop cfgW7 fdW7 tW7 0).2 =
      FileResult.failure (DlError.transport "boom") 1 := by
    simp [retryLoop, cfgW7, tW7, ConcurrentRetryDownloader.ofOptions, jsOrNat,
      attemptOutcome]
  exact ⟨h1, h2,
    C7_batch_failure_semantics.2.1 cfgW7 [] fdW7 tW7 []
      (DlError.transport "boom") 1 h1 h2⟩

/-- Counterexample to C8 as stated: the constructor's default concurrency
is 5, not 10 (`options.concurrency || 5`). -/
theorem C8_counterexample :
    (ConcurrentRetryDownloader.ofOptions {}).concurrency = 5 ∧
    ¬ (ConcurrentRetryDownloader.ofOptions {}).concurrency = 10 :=
  ⟨rfl, by decide⟩

/-- C8 amended: constructing the downloader from an empty options object
yields maxRetries 5, readTimeout 30000 ms, concurrency 5 and checkHashes
true. -/
theorem C8_defaults :
    (ConcurrentRetryDownloader.ofOptions {}).maxRetries = 5 ∧
    (ConcurrentRetryDownloader.ofOptions {}).readTimeout = 30000 ∧
    (ConcurrentRetryDownloader.ofOptions {}).concurrency = 5 ∧
    (ConcurrentRetryDownloader.ofOptions {}).checkHashes = true :=
  ⟨rfl, rfl, rfl, rfl⟩

/-- C9: the fingerprint hash ignores its optional seed parameter - the
literal seed 1 is always passed to MurmurHash v2. -/
theorem C9_seed_ignored :
    ∀ (buf : Buffer) (seed : Nat), murmurhash buf seed = murmurhash buf 1 :=
  fun _ _ => rfl

/-- C10: at the failing input maxRetries = 2 with a transport that fails
every attempt, `retryRequest` never settles - the argumentless recursive
call `retry()` restarts `counter` from its default, so `counter ==
maxRetries` never holds - whereas maxRetries = 1 does reject after one
attempt. -/
theorem C10_retryRequest_never_settles :
    (∀ fuel : Nat,
      retryRequest 2 (fun _ => Except.error "connection reset") fuel = none) ∧
    retryRequest 1 (fun _ => Except.error "connection reset") 1 =
      some (Except.error "connection reset") := by
  constructor
  · have H : ∀ (fuel attempt : Nat),
        retryRequestRetry 2 (fun _ => Except.error "connection reset")
          attempt none fuel = none := by
      intro fuel
      induction fuel with
      | zero => intro attempt; rfl
      | succ n ih =>
        intro attempt
        simp only [retryRequestRetry, Option.getD_none]
        rw [if_neg (by decide)]
        exact ih (attempt + 1)
    exact fun fuel => H fuel 1
  · rfl
